import Mathlib

/-!
Verification development for a two-application repository: a git front-end
(`git_manager_gui.py`) and a supplier-data dashboard (`supplier_dashboardv2.py`).
The Python code is shallowly embedded: pure helpers become Lean functions over
`List Char` (Python strings), the SQLite table becomes an explicit list of rows,
HTTP becomes a function from URLs to `Except`-valued payloads, and Python
exceptions become `Option`/`Except` results.
-/

/-! ## Python-style string primitives (over `List Char`) -/

/-- Characters stripped by Python `str.strip()` (ASCII whitespace). -/
def pyIsSpace (c : Char) : Bool :=
  c = ' ' || c = '\t' || c = '\n' || c = '\r' || c = '\x0b' || c = '\x0c'

/-- Python `s.strip()`: drop leading and trailing whitespace. -/
def pyStrip (l : List Char) : List Char :=
  ((l.dropWhile pyIsSpace).reverse.dropWhile pyIsSpace).reverse

/-- Python `s.split(sep)` for a one-character separator; `"".split(c) = [""]`. -/
def splitOnCharL (c : Char) : List Char → List (List Char)
  | [] => [[]]
  | x :: t =>
    let r := splitOnCharL c t
    if x = c then [] :: r
    else
      match r with
      | h :: t' => (x :: h) :: t'
      | [] => [[x]]

/-- Auxiliary accumulator for `wsplit`. -/
def wsplitAux : List Char → List Char → List (List Char)
  | [], acc => if acc.isEmpty then [] else [acc.reverse]
  | x :: t, acc =>
    if pyIsSpace x then
      if acc.isEmpty then wsplitAux t [] else acc.reverse :: wsplitAux t []
    else wsplitAux t (x :: acc)

/-- Python `s.split()` with no argument: split on whitespace runs, no empties. -/
def wsplit (l : List Char) : List (List Char) := wsplitAux l []

/-- Python `pre in`-style test `s.startswith(pre)`. -/
def startsWithL : List Char → List Char → Bool
  | [], _ => true
  | _ :: _, [] => false
  | a :: p, b :: l => a = b && startsWithL p l

/-- Python `"->" in s`. -/
def hasArrow : List Char → Bool
  | [] => false
  | [_] => false
  | a :: b :: t => (a = '-' && b = '>') || hasArrow (b :: t)

/-- Python `s.split("->", 1)[1]`: everything after the first `->`. -/
def afterArrow : List Char → List Char
  | [] => []
  | [_] => []
  | a :: b :: t => if a = '-' && b = '>' then t else afterArrow (b :: t)

/-- Python `c in s`. -/
def hasCharL (c : Char) (l : List Char) : Bool := l.contains c

/-- Python `s.index(c)` (only used when the character is present). -/
def idxOfL (c : Char) : List Char → Nat
  | [] => 0
  | x :: t => if x = c then 0 else idxOfL c t + 1

/-- Digit run of Python `int()`, allowing single underscores between digits. -/
def pyDigitsGo (acc : Nat) : List Char → Option Nat
  | [] => some acc
  | '_' :: rest =>
    match rest with
    | d :: rest2 => if d.isDigit then pyDigitsGo (acc * 10 + (d.toNat - 48)) rest2 else none
    | [] => none
  | d :: rest => if d.isDigit then pyDigitsGo (acc * 10 + (d.toNat - 48)) rest else none

/-- Nonempty digit sequence for Python `int()`. -/
def pyDigits : List Char → Option Nat
  | [] => none
  | d :: rest => if d.isDigit then pyDigitsGo (d.toNat - 48) rest else none

/-- Python `int(s)`: strip, optional sign, digits; `none` models `ValueError`. -/
def pyInt (l : List Char) : Option Int :=
  match pyStrip l with
  | '+' :: rest => (pyDigits rest).map Int.ofNat
  | '-' :: rest => (pyDigits rest).map (fun n => -(Int.ofNat n))
  | rest => (pyDigits rest).map Int.ofNat

/-! ## `git_manager_gui.parse_status_porcelain` (lines 39-83) -/

/-- One parsed change record: `{'path': ..., 'status': ..., 'index': ..., 'worktree': ...}`. -/
structure ChangeItem where
  path : List Char
  status : List Char
  index : Char
  worktree : Char
deriving DecidableEq, Repr

/-- The `mapping` dict of `parse_status_porcelain`. -/
def statusMap (c : Char) : Option (List Char) :=
  if c = 'M' then some "Modified".toList
  else if c = 'A' then some "Added".toList
  else if c = 'D' then some "Deleted".toList
  else if c = 'R' then some "Renamed".toList
  else if c = 'C' then some "Copied".toList
  else if c = 'U' then some "Unmerged".toList
  else if c = ' ' then some " ".toList
  else none

/-- Status selection for a non-rename line: index column wins over worktree
column; unmapped codes pass through verbatim (`mapping.get(flag, flag)`). -/
def statusOf (c0 c1 : Char) : List Char :=
  if c0 ≠ ' ' then (statusMap c0).getD [c0]
  else if c1 ≠ ' ' then (statusMap c1).getD [c1]
  else "Changed".toList

/-- One line of `parse_status_porcelain`. The Python code reads `x[0]` and
`x[1]` of `x = line[:2]` before any other test, so a nonempty line shorter
than two characters raises `IndexError`, modelled as `none`. -/
def parseStatusLine (line : List Char) : Option ChangeItem :=
  match line with
  | [] => none
  | [_] => none
  | c0 :: c1 :: rl =>
    let rest := rl.drop 1
    if startsWithL ['?', '?'] line then
      some ⟨pyStrip rest, "Untracked".toList, '?', '?'⟩
    else if hasArrow rest then
      some ⟨pyStrip (afterArrow rest), "Renamed".toList, c0, c1⟩
    else
      some ⟨pyStrip rest, statusOf c0 c1, c0, c1⟩

/-- Line loop of `parse_status_porcelain`: blank lines skipped, any raising
line aborts the whole call. -/
def parseStatusLines : List (List Char) → Option (List ChangeItem)
  | [] => some []
  | l :: ls =>
    if pyStrip l = [] then parseStatusLines ls
    else
      match parseStatusLine l, parseStatusLines ls with
      | some it, some rest => some (it :: rest)
      | _, _ => none

/-- Model of `parse_status_porcelain(text)` (splitting on newline characters). -/
def parse_status_porcelain (text : String) : Option (List ChangeItem) :=
  parseStatusLines (splitOnCharL '\n' text.toList)

/-! ## `git_manager_gui.parse_ahead_behind` (lines 85-102) -/

/-- The bracketed slice `s[s.index("[")+1 : s.index("]")]`. -/
def bracketInner (l : List Char) : List Char :=
  (l.drop (idxOfL '[' l + 1)).take (idxOfL ']' l - (idxOfL '[' l + 1))

/-- Model of `[p.strip() for p in bracket.split(",")]`. -/
def abParts (l : List Char) : List (List Char) :=
  (splitOnCharL ',' (bracketInner l)).map pyStrip

/-- Loop body of `parse_ahead_behind`: `int(p.split()[1])` with `IndexError`
and `ValueError` both swallowed (`except: pass`). -/
def stepAB (ab : Int × Int) (p : List Char) : Int × Int :=
  let a :=
    if startsWithL "ahead".toList p then
      match wsplit p with
      | _ :: w :: _ =>
        match pyInt w with
        | some n => n
        | none => ab.1
      | _ => ab.1
    else ab.1
  let b :=
    if startsWithL "behind".toList p then
      match wsplit p with
      | _ :: w :: _ =>
        match pyInt w with
        | some n => n
        | none => ab.2
      | _ => ab.2
    else ab.2
  (a, b)

/-- Model of `parse_ahead_behind(short_status_line)`. -/
def parse_ahead_behind (l : List Char) : Int × Int :=
  if hasCharL '[' l && hasCharL ']' l then (abParts l).foldl stepAB (0, 0)
  else (0, 0)

/-- Specification helper: the value a part would contribute to `ahead`
(`none` when the token is absent, the index is out of range, or the integer
is malformed). -/
def aheadVal (p : List Char) : Option Int :=
  if startsWithL "ahead".toList p then
    match wsplit p with
    | _ :: w :: _ => pyInt w
    | _ => none
  else none

/-- Specification helper: the value a part would contribute to `behind`. -/
def behindVal (p : List Char) : Option Int :=
  if startsWithL "behind".toList p then
    match wsplit p with
    | _ :: w :: _ => pyInt w
    | _ => none
  else none

/-! ## `git_manager_gui.safe_run` / `run_git_chain` worker (lines 23-37, 453-470) -/

/-- Result of one `safe_run` call: `(stdout, stderr, returncode)`. -/
structure CmdResult where
  out : List Char
  err : List Char
  rc : Int
deriving DecidableEq, Repr

/-- Characters `shlex.quote` treats as safe (alphanumerics and `_ @ % + = : , . - slash`). -/
def shSafe (c : Char) : Bool :=
  c.isAlphanum || c = '_' || c = '@' || c = '%' || c = '+' || c = '=' || c = ':'
    || c = ',' || c = '.' || c = '/' || c = '-'

/-- Model of `shlex.quote(s)`: empty becomes `''`; unsafe strings are wrapped in single
quotes with embedded quotes escaped. -/
def shlexQuote (s : List Char) : List Char :=
  if s.isEmpty then ['\'', '\'']
  else if s.all shSafe then s
  else '\'' :: ((s.flatMap fun c => if c = '\'' then ['\'', '"', '\'', '"', '\''] else [c]) ++ ['\''])

/-- Model of `" ".join(shlex.quote(a) for a in args)`. -/
def cmdStrOf (args : List (List Char)) : List Char :=
  List.intercalate [' '] (args.map shlexQuote)

/-- The transcript chunk one step appends:
`"\n$ " + cmd_str + "\n"` plus captured stdout and stderr. -/
def chainEntry (ex : List (List Char) → CmdResult) (args : List (List Char)) : List Char :=
  ('\n' :: '$' :: ' ' :: cmdStrOf args) ++ ('\n' :: (ex args).out) ++ (ex args).err

/-- Outcome of the `worker` loop. `trace` instruments which commands were
actually passed to `safe_run`, in order. -/
structure ChainOut where
  log : List Char
  rc : Int
  trace : List (List (List Char))
deriving DecidableEq, Repr

/-- The `worker` closure of `run_git_chain`: run each command, append its echo
and output to the transcript, remember the last return code, and `break` on the
first nonzero return code. `ex` abstracts `safe_run` (the subprocess). -/
def run_chain (ex : List (List Char) → CmdResult) : List (List (List Char)) → ChainOut
  | [] => ⟨[], 0, []⟩
  | args :: rest =>
    let r := ex args
    if r.rc ≠ 0 then ⟨chainEntry ex args, r.rc, [args]⟩
    else
      let o := run_chain ex rest
      ⟨chainEntry ex args ++ o.log, o.rc, args :: o.trace⟩

/-- Status text shown by `_poll_results`. -/
def outcome_status (rc : Int) : List Char :=
  if rc = 0 then "Done (OK)".toList else "Done (Error)".toList

/-! ## `git_manager_gui` single-flight guard (lines 434-482) -/

/-- Controller state relevant to the guard: the `running_task` flag, the
result queue, and an instrumentation counter of worker threads started. -/
structure AppSt where
  running_task : Bool
  results_queue : List (List Char × Int × Bool)
  started : Nat
deriving DecidableEq, Repr

/-- Guard portion of `run_git_chain`: an invalid repository path is logged and
returns without engaging the guard; a request while `running_task` is set logs
a rejection and returns (the `Bool` is the observable admit/reject outcome);
otherwise the flag is set and one worker thread is started. -/
def run_git_chain_req (cwd_ok : Bool) (st : AppSt) : Bool × AppSt :=
  if !cwd_ok then (false, st)
  else if st.running_task then (false, st)
  else (true, { st with running_task := true, started := st.started + 1 })

/-- The worker's final `result_queue.put(...)`. -/
def worker_publish (o : List Char × Int × Bool) (st : AppSt) : AppSt :=
  { st with results_queue := st.results_queue ++ [o] }

/-- Model of `_poll_results`: on `get_nowait` success the guard is released; on
`queue.Empty` nothing changes (the poll is rescheduled). -/
def poll_results (st : AppSt) : AppSt :=
  match st.results_queue with
  | [] => st
  | _ :: q => { st with results_queue := q, running_task := false }

/-! ## `supplier_dashboardv2` SQLite model (schema lines 143-171) -/

/-- A dynamically-typed SQLite value. -/
inductive SVal where
  | null : SVal
  | s : String → SVal
  | i : Int → SVal
deriving DecidableEq, Repr

/-- The column names appearing in the `suppliers` dicts/statements (the
surrogate `id` is kept apart as the row key and is never in a SET list). -/
inductive Col where
  | name | sap_id | status | vendor_category | contact | address | website
  | vendor_manager | platform | api_integration | payment_terms | freight_matrix
  | abn | account_id | external_id | country | postcode | updated_at | created_at
deriving DecidableEq, BEq, Repr

/-- One row of the `suppliers` table. -/
structure Row where
  id : Int
  name : SVal
  sap_id : SVal
  status : SVal
  vendor_category : SVal
  contact : SVal
  address : SVal
  website : SVal
  vendor_manager : SVal
  platform : SVal
  api_integration : SVal
  payment_terms : SVal
  freight_matrix : SVal
  abn : SVal
  account_id : SVal
  external_id : SVal
  country : SVal
  postcode : SVal
  created_at : SVal
  updated_at : SVal
deriving DecidableEq, Repr

/-- The `suppliers` table plus the next AUTOINCREMENT id. -/
structure Table where
  rows : List Row
  nextId : Int
deriving DecidableEq, Repr

/-- Assign one named column of a row. -/
def setRowField (r : Row) (c : Col) (v : SVal) : Row :=
  match c with
  | .name => { r with name := v }
  | .sap_id => { r with sap_id := v }
  | .status => { r with status := v }
  | .vendor_category => { r with vendor_category := v }
  | .contact => { r with contact := v }
  | .address => { r with address := v }
  | .website => { r with website := v }
  | .vendor_manager => { r with vendor_manager := v }
  | .platform => { r with platform := v }
  | .api_integration => { r with api_integration := v }
  | .payment_terms => { r with payment_terms := v }
  | .freight_matrix => { r with freight_matrix := v }
  | .abn => { r with abn := v }
  | .account_id => { r with account_id := v }
  | .external_id => { r with external_id := v }
  | .country => { r with country := v }
  | .postcode => { r with postcode := v }
  | .updated_at => { r with updated_at := v }
  | .created_at => { r with created_at := v }

/-- Apply a SET list in order. -/
def applyFields (r : Row) (sets : List (Col × SVal)) : Row :=
  sets.foldl (fun r p => setRowField r p.1 p.2) r

/-- Execution of `UPDATE suppliers SET k1 = ?, ... WHERE id = ?`. -/
def execUpdate (rows : List Row) (sets : List (Col × SVal)) (rid : Int) : List Row :=
  rows.map fun x => if x.id = rid then applyFields x sets else x

/-- SQL `=` between two bound values: NULL compares false, as do
cross-type comparisons of the values this program binds. -/
def sqlEq (a b : SVal) : Bool :=
  match a, b with
  | .s x, .s y => x == y
  | .i x, .i y => x == y
  | _, _ => false

/-- SQL `IFNULL(v, -1)`. -/
def sqlIfNull (v : SVal) : SVal :=
  match v with
  | .null => .i (-1)
  | x => x

/-- Fresh row before column assignment: all NULL except the schema default
`api_integration INTEGER DEFAULT 0`, keyed by the next AUTOINCREMENT id. -/
def defaultRow (nid : Int) : Row :=
  ⟨nid, .null, .null, .null, .null, .null, .null, .null, .null, .null, .i 0,
   .null, .null, .null, .null, .null, .null, .null, .null, .null⟩

/-- Build the inserted row from the column list and the bound values. -/
def buildRow (nid : Int) (pairs : List (Col × SVal)) : Row :=
  pairs.foldl (fun r p => setRowField r p.1 p.2) (defaultRow nid)

/-- Execution of `INSERT INTO suppliers (cols...) VALUES (?...)`: SQLite rejects the
statement when the column list and the value list disagree in length
(`OperationalError: N values for M columns`). -/
def execInsert (tbl : Table) (cols : List Col) (vals : List SVal) : Except String Table :=
  if cols.length = vals.length then
    .ok ⟨tbl.rows ++ [buildRow tbl.nextId (cols.zip vals)], tbl.nextId + 1⟩
  else
    .error (toString vals.length ++ " values for " ++ toString cols.length ++ " columns")

/-! ## `DataAccess.upsert_supplier` (lines 249-302) and `update_supplier` (310-318) -/

/-- A merged supplier record as produced by `fetch_suppliers_merged` (the
dict handed to `upsert_supplier`). -/
structure SupplierRec where
  name : Option String
  sap_id : Option String
  status : Option String
  vendor_category : Option String
  contact : Option String
  address : Option String
  website : Option String
  vendor_manager : Option String
  platform : Option String
  api_integration : Bool
  payment_terms : Option String
  freight_matrix : Option String
  abn : Option String
  account_id : Option String
  external_id : Option Int
  country : Option String
  postcode : Option String
deriving DecidableEq, Repr

/-- Bind an optional string as a SQL parameter. -/
def optStr : Option String → SVal
  | some s => .s s
  | none => .null

/-- Bind an optional integer as a SQL parameter. -/
def optInt : Option Int → SVal
  | some n => .i n
  | none => .null

/-- Python truthiness of an optional string (`None` and `""` are falsy). -/
def truthyS : Option String → Bool
  | some s => !(s == "")
  | none => false

/-- The `fields` dict of `upsert_supplier`, in insertion order, with
`api_integration` coerced via `int(bool(...))` and `updated_at` set to the
current time. -/
def fieldsList (s : SupplierRec) (nowU : String) : List (Col × SVal) :=
  [ (Col.name, optStr s.name),
    (Col.sap_id, optStr s.sap_id),
    (Col.status, optStr s.status),
    (Col.vendor_category, optStr s.vendor_category),
    (Col.contact, optStr s.contact),
    (Col.address, optStr s.address),
    (Col.website, optStr s.website),
    (Col.vendor_manager, optStr s.vendor_manager),
    (Col.platform, optStr s.platform),
    (Col.api_integration, SVal.i (if s.api_integration then 1 else 0)),
    (Col.payment_terms, optStr s.payment_terms),
    (Col.freight_matrix, optStr s.freight_matrix),
    (Col.abn, optStr s.abn),
    (Col.account_id, optStr s.account_id),
    (Col.external_id, optInt s.external_id),
    (Col.country, optStr s.country),
    (Col.postcode, optStr s.postcode),
    (Col.updated_at, SVal.s nowU) ]

/-- Insert branch of `upsert_supplier`: `fields["created_at"] = now` is
executed first, so `fields.keys() | set(created_at)` already has 19 members
while `qmarks` uses `len(fields) + 1 = 20` placeholders and the parameter
list `list(fields.values()) + [fields["created_at"]]` has 20 entries. -/
def upsert_insert (nowC : String) (tbl : Table) (fields : List (Col × SVal)) : Except String Table :=
  let fields2 := fields ++ [(Col.created_at, SVal.s nowC)]
  let cols := ((fields2.map Prod.fst) ++ [Col.created_at]).eraseDups
  let vals := (fields2.map Prod.snd) ++ [SVal.s nowC]
  execInsert tbl cols vals

/-- Model of `DataAccess.upsert_supplier(conn, s)`: match by `account_id` when the
bound value is truthy, else by `(name, IFNULL(external_id, -1))`; `fetchone`
takes the first matching row in table order. `nowU`/`nowC` are the two
`utcnow()` calls. -/
def upsert_supplier (nowU nowC : String) (tbl : Table) (s : SupplierRec) : Except String Table :=
  let fields := fieldsList s nowU
  if truthyS s.account_id then
    match tbl.rows.find? (fun x => sqlEq x.account_id (optStr s.account_id)) with
    | some r => .ok ⟨execUpdate tbl.rows fields r.id, tbl.nextId⟩
    | none => upsert_insert nowC tbl fields
  else
    match tbl.rows.find? (fun x =>
        sqlEq x.name (optStr s.name)
          && sqlEq (sqlIfNull x.external_id) (sqlIfNull (optInt s.external_id))) with
    | some r => .ok ⟨execUpdate tbl.rows fields r.id, tbl.nextId⟩
    | none => upsert_insert nowC tbl fields

/-- Python dict assignment `fields[k] = v`: overwrite in place when the key
exists, else append. -/
def dictSet (fields : List (Col × SVal)) (k : Col) (v : SVal) : List (Col × SVal) :=
  if (fields.map Prod.fst).contains k then
    fields.map fun p => if p.1 = k then (k, v) else p
  else fields ++ [(k, v)]

/-- Model of `DataAccess.update_supplier(rec_id, fields)`: always refresh
`updated_at`, then `UPDATE ... WHERE id = rec_id`. -/
def update_supplier (now : String) (tbl : Table) (rid : Int) (fields : List (Col × SVal)) : Table :=
  ⟨execUpdate tbl.rows (dictSet fields Col.updated_at (SVal.s now)) rid, tbl.nextId⟩

/-! ## `ApiClient.fetch_suppliers_merged` (lines 513-575) -/

/-- A raw JSON record from a `results` array; only the keys the merge code
reads are modelled. -/
structure RawRec where
  name : Option String
  account_id : Option String
  id : Option Int
  country : Option String
  postcode : Option String
deriving DecidableEq, Repr

/-- Lookup `ord_by_acc.get(acc)`: the dict is filled with `ord_by_acc[acc] = o` for
every order (including falsy keys), so a lookup returns the last order whose
`account_id` equals the key. -/
def ordByAcc (orders : List RawRec) (acc : Option String) : Option RawRec :=
  (orders.filter fun o => o.account_id == acc).getLast?

/-- Lookup `ord_by_name.get(k)`: only orders with a truthy name are indexed, keyed
by `name.lower()`; the last insertion wins. -/
def ordByName (orders : List RawRec) (k : String) : Option RawRec :=
  (orders.filter fun o =>
    match o.name with
    | some nm => !(nm == "") && nm.toLower == k
    | none => false).getLast?

/-- Model of `ord_by_acc.get(acc) or (ord_by_name.get(nm.lower()) if nm else None)`. -/
def prodMatch (orders : List RawRec) (p : RawRec) : Option RawRec :=
  (ordByAcc orders p.account_id).orElse fun _ =>
    match p.name with
    | some nm => if !(nm == "") then ordByName orders nm.toLower else none
    | none => none

/-- Python `a or b` on optional strings (`None` and `""` are falsy). -/
def pyOrS (a b : Option String) : Option String :=
  if truthyS a then a else b

/-- The merged dict built for a product record (first collection). -/
def productRow (orders : List RawRec) (p : RawRec) : SupplierRec :=
  let o := prodMatch orders p
  { name := pyOrS p.name (o.bind RawRec.name)
    sap_id := none
    status := some "Active"
    vendor_category := none
    contact := none
    address := none
    website := none
    vendor_manager := none
    platform := some "VS"
    api_integration := true
    payment_terms := none
    freight_matrix := none
    abn := none
    account_id := pyOrS p.account_id (o.bind RawRec.account_id)
    external_id := o.bind RawRec.id
    country := p.country
    postcode := p.postcode }

/-- The dict appended for an unmatched order record (second collection):
its own key, null-filled product fields. -/
def orderRow (o : RawRec) : SupplierRec :=
  { name := o.name
    sap_id := none
    status := some "Active"
    vendor_category := none
    contact := none
    address := none
    website := none
    vendor_manager := none
    platform := some "VS"
    api_integration := true
    payment_terms := none
    freight_matrix := none
    abn := none
    account_id := o.account_id
    external_id := o.id
    country := none
    postcode := none }

/-- The truthy account id of a merged record, if any
(`if m.get("account_id")`). -/
def truthyAcc (m : SupplierRec) : Option String :=
  match m.account_id with
  | some a => if !(a == "") then some a else none
  | none => none

/-- The set comprehension `seen_acc` over the merged product rows. -/
def seenAccOf (mergedP : List SupplierRec) : List String :=
  mergedP.filterMap truthyAcc

/-- Pure core of `fetch_suppliers_merged`: merge the product records, then
append each order whose account id is truthy and unseen
(`if acc and acc not in seen_acc`). -/
def mergeSuppliers (products orders : List RawRec) : List SupplierRec :=
  let mergedP := products.map (productRow orders)
  let seen := seenAccOf mergedP
  mergedP ++
    (orders.filter fun o =>
      match o.account_id with
      | some a => !(a == "") && !(seen.contains a)
      | none => false).map orderRow

/-- The `seen_acc` set as a function of the two fetched collections. -/
def seenAcc (products orders : List RawRec) : List String :=
  seenAccOf (products.map (productRow orders))

/-! ## `ApiClient` HTTP layer and `SyncWorker.run` (lines 486-617) -/

/-- One page payload: the `results` array and the optional `next` URL. -/
structure Payload where
  results : List RawRec
  next : Option String
deriving DecidableEq, Repr

/-- The network: what `requests.get(url)` would yield for each URL
(`.error` models a raised `requests.RequestException`). -/
abbrev HttpWorld := String → Except String Payload

/-- Model of `ApiClient._http_get_json` (lines 495-502): the request exception is
caught, logged to stdout, and an empty dict is returned, so the caller sees
`results = []` and `next = None`. -/
def http_get_json (w : HttpWorld) (url : String) : Payload :=
  match w url with
  | .ok p => p
  | .error _ => ⟨[], none⟩

/-- Model of `ApiClient._fetch_all_paginated`: follow `next` links while present.
`fuel` bounds the unrolling of the Python `while url:` loop; any execution
that terminates is reproduced by a large enough fuel. -/
def fetch_all_paginated (w : HttpWorld) : Nat → Option String → List RawRec
  | _, none => []
  | 0, some _ => []
  | fuel + 1, some url =>
    let p := http_get_json w url
    p.results ++ fetch_all_paginated w fuel p.next

/-- The `API_URL_PRODUCTS` constant. -/
def API_URL_PRODUCTS : String := "https://api.virtualstock.com/api/v4/suppliers/?limit=1000"

/-- The `API_URL_ORDERS` constant. -/
def API_URL_ORDERS : String := "https://api.virtualstock.com/restapi/v4/suppliers/?limit=1000"

/-- Model of `ApiClient.fetch_suppliers_merged`. -/
def fetch_suppliers_merged (w : HttpWorld) (fuel : Nat) : List SupplierRec :=
  mergeSuppliers (fetch_all_paginated w fuel (some API_URL_PRODUCTS))
    (fetch_all_paginated w fuel (some API_URL_ORDERS))

/-- Messages pushed onto the progress queue by `SyncWorker`. -/
inductive Ev where
  | status : String → Ev
  | progress : Nat → Nat → Ev
  | done : Ev
  | error : String → Ev
deriving DecidableEq, Repr

/-- Number of `error` events in a message list. -/
def errCount (evs : List Ev) : Nat :=
  (evs.filter fun e =>
    match e with
    | .error _ => true
    | _ => false).length

/-- Upsert loop of `SyncWorker.run` (lines 596-600): every 50 records and on
the last record the connection commits and a progress event is pushed; an
exception from an upsert aborts the loop, and uncommitted work is lost when
the connection closes. Returns (events, table visible on disk, error). -/
def sync_loop (nowU nowC : String) (total : Nat) :
    List SupplierRec → Nat → Table → Table → List Ev × Table × Option String
  | [], _, _, working => ([], working, none)
  | rec :: rest, i, committed, working =>
    match upsert_supplier nowU nowC working rec with
    | .error e => ([], committed, some e)
    | .ok w2 =>
      if i % 50 = 0 ∨ i = total then
        let r := sync_loop nowU nowC total rest (i + 1) w2 w2
        (Ev.progress i total :: r.1, r.2.1, r.2.2)
      else sync_loop nowU nowC total rest (i + 1) committed w2

/-- Epilogue of `SyncWorker.run`: statuses, then either the final commit plus
`done`, or the `error` event from the caught exception. -/
def sync_finish (total : Nat) (r : List Ev × Table × Option String) : List Ev × Table :=
  match r.2.2 with
  | none =>
    (Ev.status "Sync started..."
      :: Ev.status ("Fetched " ++ toString total ++ " records, writing to DB...")
      :: r.1 ++ [Ev.status "Sync complete.", Ev.done], r.2.1)
  | some e =>
    (Ev.status "Sync started..."
      :: Ev.status ("Fetched " ++ toString total ++ " records, writing to DB...")
      :: r.1 ++ [Ev.error ("Sync failed: " ++ e)], r.2.1)

/-- Model of `SyncWorker.run`: fetch and merge, then upsert every merged record into
the store, reporting through the progress queue. -/
def sync_run (w : HttpWorld) (fuel : Nat) (nowU nowC : String) (tbl : Table) : List Ev × Table :=
  sync_finish (fetch_suppliers_merged w fuel).length
    (sync_loop nowU nowC (fetch_suppliers_merged w fuel).length
      (fetch_suppliers_merged w fuel) 1 tbl tbl)

/-! ## Generic helper: occurrence count -/

/-- Number of occurrences of `x` in `l`. -/
def countOcc {α : Type} [DecidableEq α] (x : α) : List α → Nat
  | [] => 0
  | y :: t => (if y = x then 1 else 0) + countOcc x t

/-- Decidable equality for `Except` results. -/
instance instDecEqExcept {ε α : Type} [DecidableEq ε] [DecidableEq α] :
    DecidableEq (Except ε α) := fun a b =>
  match a, b with
  | .ok x, .ok y =>
    if h : x = y then .isTrue (congrArg Except.ok h)
    else .isFalse fun c => h (Except.ok.inj c)
  | .error x, .error y =>
    if h : x = y then .isTrue (congrArg Except.error h)
    else .isFalse fun c => h (Except.error.inj c)
  | .ok _, .error _ => .isFalse Except.noConfusion
  | .error _, .ok _ => .isFalse Except.noConfusion

/-! ## Concrete fixtures used by counterexamples and witnesses -/

/-- An order record with a truthy account id (C1 scenario). -/
def oAcme : RawRec := ⟨some "Acme", some "A1", some 9, none, none⟩

/-- A network where the products URL raises a request exception and the
orders URL serves one page with one record. -/
def w0 : HttpWorld := fun url =>
  if url == API_URL_ORDERS then .ok ⟨[oAcme], none⟩ else .error "ConnectionError"

/-- A pre-existing stored row with `account_id = 'A1'`. -/
def row0 : Row :=
  ⟨1, .s "Old Name", .null, .s "Active", .null, .null, .null, .null, .null, .null,
   .i 0, .null, .null, .null, .s "A1", .null, .null, .null, .s "T0", .s "T0"⟩

/-- A store already containing `row0`. -/
def tbl0 : Table := ⟨[row0], 2⟩

/-- A network where every request raises. -/
def wDown : HttpWorld := fun _ => .error "down"

/-- A merged record whose account id is absent from the store (C2). -/
def recA : SupplierRec :=
  { name := some "Alpha", sap_id := none, status := some "Active",
    vendor_category := none, contact := none, address := none, website := none,
    vendor_manager := none, platform := some "VS", api_integration := true,
    payment_terms := none, freight_matrix := none, abn := none,
    account_id := some "A9", external_id := some 3, country := some "AU",
    postcode := some "2000" }

/-- An empty store. -/
def tblEmpty : Table := ⟨[], 1⟩

/-- An order record with no account id at all (C3 counterexample). -/
def oNoAcc : RawRec := ⟨some "orphan", none, some 7, none, none⟩

/-- An order record with a fresh truthy account id (C3 witness). -/
def oZ : RawRec := ⟨some "Zeta", some "Z1", some 11, none, none⟩

/-- Witness chain for C4: three git commands. -/
def cmdsW : List (List (List Char)) :=
  [["git".toList, "add".toList, "-A".toList],
   ["git".toList, "commit".toList],
   ["git".toList, "push".toList]]

/-- Witness executor for C4: the second command fails, the others succeed. -/
def exW : List (List Char) → CmdResult := fun args =>
  if args = ["git".toList, "commit".toList] then ⟨[], "boom".toList, 1⟩
  else ⟨"ok".toList, [], 0⟩

/-- Witness controller state for C5. -/
def stW : AppSt := ⟨false, [], 0⟩

/-- A merged record used for the C6 double-application scenario. -/
def recB : SupplierRec :=
  { name := some "Beta", sap_id := none, status := some "Active",
    vendor_category := none, contact := none, address := none, website := none,
    vendor_manager := none, platform := some "VS", api_integration := true,
    payment_terms := none, freight_matrix := none, abn := none,
    account_id := some "B2", external_id := some 5, country := none,
    postcode := none }

/-- A merged record matching `row0` by account id (C9 witness). -/
def sUpd : SupplierRec :=
  { name := some "New Name", sap_id := some "SAP-1", status := some "Active",
    vendor_category := none, contact := none, address := none, website := none,
    vendor_manager := none, platform := some "VS", api_integration := true,
    payment_terms := none, freight_matrix := none, abn := none,
    account_id := some "A1", external_id := some 9, country := some "AU",
    postcode := none }

/-! ## Claim theorems -/

/-- C7: `parse_change_list` on the literal input
`" M a.txt\nA  b.txt\n?? c.txt\nR  old.txt -> new.txt\n"` returns exactly the
four records `[(a.txt, Modified), (b.txt, Added), (c.txt, Untracked),
(new.txt, Renamed)]`, in that order. -/
theorem c7_parse_change_list_literal :
    parse_status_porcelain " M a.txt\nA  b.txt\n?? c.txt\nR  old.txt -> new.txt\n" =
      some [⟨"a.txt".toList, "Modified".toList, ' ', 'M'⟩,
            ⟨"b.txt".toList, "Added".toList, 'A', ' '⟩,
            ⟨"c.txt".toList, "Untracked".toList, '?', '?'⟩,
            ⟨"new.txt".toList, "Renamed".toList, 'R', ' '⟩] := by
  decide

/-- C2 (code bug): on the insert path of `upsert_supplier` (no stored row
matches), the INSERT statement lists 19 columns but binds 20 values, so
SQLite raises `OperationalError` and no new row is inserted — the claimed
"new row with both timestamps set to now" never happens. -/
theorem c2_insert_always_fails :
    upsert_supplier "T1" "T2" tblEmpty recA = .error "20 values for 19 columns" := by
  decide

/-- C6 (code bug): applying the same merged record twice starting from a
store without its account id does not leave one row — both applications
raise on the broken INSERT, leaving zero rows with that account id. -/
theorem c6_double_upsert_fails :
    upsert_supplier "T3" "T4" tblEmpty recB = .error "20 values for 19 columns"
    ∧ upsert_supplier "T5" "T6" tblEmpty recB = .error "20 values for 19 columns"
    ∧ (tblEmpty.rows.filter fun r => sqlEq r.account_id (SVal.s "B2")).length = 0 := by
  decide

/-- C3 counterexample: an order record with no account identifier and no
product match is silently dropped by the merge — it appears zero times in
the merged output, refuting "no record observed from either source is
silently dropped — including records of the second collection that lack an
account identifier". -/
theorem c3_counterexample :
    mergeSuppliers [] [oNoAcc] = []
    ∧ countOcc (orderRow oNoAcc) (mergeSuppliers [] [oNoAcc]) = 0 := by
  decide

/-- C1 counterexample: with a network where the products page request raises,
the sync does not abort with a FetchError before upserts: it emits no error
event, ends with `done`, and still upserts a merged record (the store
changes), refuting the claimed abort-before-any-upsert behaviour. -/
theorem c1_counterexample :
    w0 API_URL_PRODUCTS = Except.error "ConnectionError"
    ∧ errCount (sync_run w0 2 "T1" "T2" tbl0).1 = 0
    ∧ (sync_run w0 2 "T1" "T2" tbl0).1.getLast? = some Ev.done
    ∧ (sync_run w0 2 "T1" "T2" tbl0).2 ≠ tbl0 := by
  decide

/-- The first component of one loop step is the part's ahead contribution,
defaulting to the previous value. -/
theorem stepAB_fst (ab : Int × Int) (p : List Char) :
    (stepAB ab p).1 = (aheadVal p).getD ab.1 := by
  unfold stepAB aheadVal
  cases hs : startsWithL "ahead".toList p with
  | false => simp [hs]
  | true =>
    cases hw : wsplit p with
    | nil => simp [hs, hw]
    | cons x t =>
      cases t with
      | nil => simp [hs, hw]
      | cons w t2 => cases hi : pyInt w <;> simp [hs, hw, hi]

/-- The second component of one loop step is the part's behind contribution,
defaulting to the previous value. -/
theorem stepAB_snd (ab : Int × Int) (p : List Char) :
    (stepAB ab p).2 = (behindVal p).getD ab.2 := by
  unfold stepAB behindVal
  cases hs : startsWithL "behind".toList p with
  | false => simp [hs]
  | true =>
    cases hw : wsplit p with
    | nil => simp [hs, hw]
    | cons x t =>
      cases t with
      | nil => simp [hs, hw]
      | cons w t2 => cases hi : pyInt w <;> simp [hs, hw, hi]

/-- If no part contributes an ahead value, the fold leaves it unchanged. -/
theorem foldl_stepAB_fst (parts : List (List Char)) :
    ∀ ab : Int × Int, (∀ p ∈ parts, aheadVal p = none) →
      (parts.foldl stepAB ab).1 = ab.1 := by
  induction parts with
  | nil => intro ab _; rfl
  | cons p ps ih =>
    intro ab h
    have hp : aheadVal p = none := h p (by simp)
    have h1 : (ps.foldl stepAB (stepAB ab p)).1 = (stepAB ab p).1 :=
      ih _ fun q hq => h q (by simp [hq])
    have h2 : (stepAB ab p).1 = ab.1 := by rw [stepAB_fst, hp]; rfl
    calc ((p :: ps).foldl stepAB ab).1 = (ps.foldl stepAB (stepAB ab p)).1 := rfl
      _ = ab.1 := by rw [h1, h2]

/-- If no part contributes a behind value, the fold leaves it unchanged. -/
theorem foldl_stepAB_snd (parts : List (List Char)) :
    ∀ ab : Int × Int, (∀ p ∈ parts, behindVal p = none) →
      (parts.foldl stepAB ab).2 = ab.2 := by
  induction parts with
  | nil => intro ab _; rfl
  | cons p ps ih =>
    intro ab h
    have hp : behindVal p = none := h p (by simp)
    have h1 : (ps.foldl stepAB (stepAB ab p)).2 = (stepAB ab p).2 :=
      ih _ fun q hq => h q (by simp [hq])
    have h2 : (stepAB ab p).2 = ab.2 := by rw [stepAB_snd, hp]; rfl
    calc ((p :: ps).foldl stepAB ab).2 = (ps.foldl stepAB (stepAB ab p)).2 := rfl
      _ = ab.2 := by rw [h1, h2]

/-- C8: `parse_ahead_behind` returns a pair of integers (it is total by
construction, so no exception escapes); the two literal examples hold; and
whenever the bracket is missing, or no part supplies a well-formed
ahead/behind integer (token absent, index error, or malformed integer — all
swallowed by the bare except), the corresponding component is 0. -/
theorem c8_parse_ahead_behind :
    parse_ahead_behind ("## main...origin/main [ahead 2, behind 1]".toList) = (2, 1)
    ∧ parse_ahead_behind ("## main".toList) = (0, 0)
    ∧ (∀ l : List Char, (hasCharL '[' l && hasCharL ']' l) = false →
        parse_ahead_behind l = (0, 0))
    ∧ (∀ l : List Char, (∀ p ∈ abParts l, aheadVal p = none) →
        (parse_ahead_behind l).1 = 0)
    ∧ (∀ l : List Char, (∀ p ∈ abParts l, behindVal p = none) →
        (parse_ahead_behind l).2 = 0) := by
  refine ⟨by decide, by decide, ?_, ?_, ?_⟩
  · intro l h
    simp [parse_ahead_behind, h]
  · intro l h
    unfold parse_ahead_behind
    by_cases hc : (hasCharL '[' l && hasCharL ']' l) = true
    · rw [if_pos hc]
      exact foldl_stepAB_fst (abParts l) (0, 0) h
    · rw [if_neg hc]
  · intro l h
    unfold parse_ahead_behind
    by_cases hc : (hasCharL '[' l && hasCharL ']' l) = true
    · rw [if_pos hc]
      exact foldl_stepAB_snd (abParts l) (0, 0) h
    · rw [if_neg hc]

/-- C8 witness: a line with a malformed ahead integer and a valid behind
integer; the theorem gives ahead = 0. -/
theorem c8_parse_ahead_behind_witness :
    (∀ p ∈ abParts ("## dev [ahead x, behind 3]".toList), aheadVal p = none)
    ∧ (parse_ahead_behind ("## dev [ahead x, behind 3]".toList)).1 = 0 :=
  ⟨by decide, c8_parse_ahead_behind.2.2.2.1 _ (by decide)⟩

/-- A mapped-or-verbatim status can only read `Copied` at the letter C. -/
theorem statusMap_copied {c : Char} (h : (statusMap c).getD [c] = "Copied".toList) :
    c = 'C' := by
  by_cases hM : c = 'M'
  · subst hM; exact absurd h (by decide)
  by_cases hA : c = 'A'
  · subst hA; exact absurd h (by decide)
  by_cases hD : c = 'D'
  · subst hD; exact absurd h (by decide)
  by_cases hR : c = 'R'
  · subst hR; exact absurd h (by decide)
  by_cases hC : c = 'C'
  · exact hC
  by_cases hU : c = 'U'
  · subst hU; exact absurd h (by decide)
  by_cases hSp : c = ' '
  · subst hSp; exact absurd h (by decide)
  have hn : statusMap c = none := by
    simp [statusMap, hM, hA, hD, hR, hC, hU, hSp]
  rw [hn] at h
  simp only [Option.getD_none] at h
  have hlen : ([c]).length = ("Copied".toList).length := by rw [h]
  have h6 : ("Copied".toList).length = 6 := by decide
  rw [h6] at hlen
  simp at hlen

/-- Status selection yields `Copied` only when one of the two flags is `C`. -/
theorem statusOf_copied {c0 c1 : Char} (h : statusOf c0 c1 = "Copied".toList) :
    c0 = 'C' ∨ c1 = 'C' := by
  unfold statusOf at h
  by_cases h0 : c0 = ' '
  · rw [if_neg (by simp [h0])] at h
    by_cases h1 : c1 = ' '
    · rw [if_neg (by simp [h1])] at h
      exact absurd h (by decide)
    · rw [if_pos h1] at h
      exact Or.inr (statusMap_copied h)
  · rw [if_pos h0] at h
    exact Or.inl (statusMap_copied h)

/-- C10: for every non-blank line not starting with `??`, when the text from
the fourth character on contains `->`, the parser reports kind `Renamed`
(whatever the two status flags are), keeping the trimmed text after the first
`->` as the path; consequently a parsed record can carry kind `Copied` only
when the line had no arrow and one of the flags is `C`. -/
theorem c10_arrow_renamed :
    (∀ line : List Char,
        pyStrip line ≠ [] →
        startsWithL ['?', '?'] line = false →
        hasArrow (line.drop 3) = true →
        (parseStatusLine line).map (fun it => (it.status, it.path)) =
          some ("Renamed".toList, pyStrip (afterArrow (line.drop 3))))
    ∧ (∀ (line : List Char) (it : ChangeItem),
        parseStatusLine line = some it →
        it.status = "Copied".toList →
        hasArrow (line.drop 3) = false ∧ (it.index = 'C' ∨ it.worktree = 'C')) := by
  constructor
  · intro line hnb hq ha
    match line with
    | [] => exact Bool.noConfusion ha
    | [c0] => exact Bool.noConfusion ha
    | c0 :: c1 :: rl =>
      have ha' : hasArrow (rl.drop 1) = true := ha
      simp only [parseStatusLine, hq, Bool.false_eq_true, if_false, ha', if_true,
        Option.map_some]
      rfl
  · intro line it hp hs
    match line with
    | [] => exact Option.noConfusion hp
    | [c0] => exact Option.noConfusion hp
    | c0 :: c1 :: rl =>
      by_cases hq : startsWithL ['?', '?'] (c0 :: c1 :: rl) = true
      · simp only [parseStatusLine, hq, if_true] at hp
        obtain rfl := Option.some.inj hp
        have hs' : ("Untracked".toList : List Char) = "Copied".toList := hs
        exact absurd hs' (by decide)
      · simp only [Bool.not_eq_true] at hq
        by_cases ha : hasArrow (rl.drop 1) = true
        · simp only [parseStatusLine, hq, Bool.false_eq_true, if_false, ha, if_true] at hp
          obtain rfl := Option.some.inj hp
          have hs' : ("Renamed".toList : List Char) = "Copied".toList := hs
          exact absurd hs' (by decide)
        · simp only [Bool.not_eq_true] at ha
          simp only [parseStatusLine, hq, Bool.false_eq_true, if_false, ha] at hp
          obtain rfl := Option.some.inj hp
          exact ⟨ha, statusOf_copied hs⟩

/-- C10 witness: a copy-coded line written with an arrow is parsed as
`Renamed`, keeping the text after the arrow. -/
theorem c10_arrow_renamed_witness :
    pyStrip ("C  a -> b".toList) ≠ []
    ∧ startsWithL ['?', '?'] ("C  a -> b".toList) = false
    ∧ hasArrow (("C  a -> b".toList).drop 3) = true
    ∧ (parseStatusLine ("C  a -> b".toList)).map (fun it => (it.status, it.path)) =
        some ("Renamed".toList, pyStrip (afterArrow (("C  a -> b".toList).drop 3))) :=
  ⟨by decide, by decide, by decide,
    c10_arrow_renamed.1 _ (by decide) (by decide) (by decide)⟩

/-- Unfolding `run_chain` on a failing head command. -/
theorem run_chain_cons_fail (ex : List (List Char) → CmdResult) (a : List (List Char))
    (rest : List (List (List Char))) (h : (ex a).rc ≠ 0) :
    run_chain ex (a :: rest) = ⟨chainEntry ex a, (ex a).rc, [a]⟩ := by
  simp [run_chain, h]

/-- Unfolding `run_chain` on a succeeding head command. -/
theorem run_chain_cons_ok (ex : List (List Char) → CmdResult) (a : List (List Char))
    (rest : List (List (List Char))) (h : (ex a).rc = 0) :
    run_chain ex (a :: rest) =
      ⟨chainEntry ex a ++ (run_chain ex rest).log, (run_chain ex rest).rc,
        a :: (run_chain ex rest).trace⟩ := by
  simp [run_chain, h]

/-- If command `k` fails and all earlier ones succeed, the worker executes
exactly the first `k+1` commands and returns the failing code with the
transcript of those commands. -/
theorem run_chain_fail (ex : List (List Char) → CmdResult) :
    ∀ (cmds : List (List (List Char))) (k : Nat) (ck : List (List Char)),
      cmds[k]? = some ck → (ex ck).rc ≠ 0 → (∀ c ∈ cmds.take k, (ex c).rc = 0) →
      run_chain ex cmds =
        ⟨((cmds.take (k + 1)).map (chainEntry ex)).flatten, (ex ck).rc, cmds.take (k + 1)⟩ := by
  intro cmds
  induction cmds with
  | nil => intro k ck hk; simp at hk
  | cons a rest ih =>
    intro k ck hk hf hprev
    cases k with
    | zero =>
      obtain rfl : a = ck := by simpa using hk
      rw [run_chain_cons_fail ex a rest hf]
      simp
    | succ k =>
      have hk' : rest[k]? = some ck := by simpa using hk
      have ha0 : (ex a).rc = 0 := hprev a (by simp [List.take_succ_cons])
      have hprev' : ∀ c ∈ rest.take k, (ex c).rc = 0 := fun c hc =>
        hprev c (by simp [List.take_succ_cons, hc])
      rw [run_chain_cons_ok ex a rest ha0, ih k ck hk' hf hprev']
      simp [List.take_succ_cons]

/-- If all commands succeed, the worker executes every command and returns
return code 0 with the full transcript. -/
theorem run_chain_all_ok (ex : List (List Char) → CmdResult) :
    ∀ cmds : List (List (List Char)), (∀ c ∈ cmds, (ex c).rc = 0) →
      run_chain ex cmds = ⟨(cmds.map (chainEntry ex)).flatten, 0, cmds⟩ := by
  intro cmds
  induction cmds with
  | nil => intro _; simp [run_chain]
  | cons a rest ih =>
    intro h
    rw [run_chain_cons_ok ex a rest (h a (by simp)), ih fun c hc => h c (by simp [hc])]
    simp

/-- C4: commands run strictly in order and execution stops at the first
nonzero exit code: when step `k` (0-indexed here) fails after `k` successes,
only the first `k+1` commands are ever passed to `safe_run`, the displayed
status is `Done (Error)`, and the transcript is exactly the echoes plus
captured output of those `k+1` steps; when every step exits 0, all commands
run and the status is `Done (OK)`. -/
theorem c4_chain_stops_at_first_failure (ex : List (List Char) → CmdResult)
    (cmds : List (List (List Char))) :
    (∀ (k : Nat) (ck : List (List Char)),
        cmds[k]? = some ck → (ex ck).rc ≠ 0 → (∀ c ∈ cmds.take k, (ex c).rc = 0) →
        run_chain ex cmds =
          ⟨((cmds.take (k + 1)).map (chainEntry ex)).flatten, (ex ck).rc, cmds.take (k + 1)⟩
        ∧ outcome_status (run_chain ex cmds).rc = "Done (Error)".toList)
    ∧ ((∀ c ∈ cmds, (ex c).rc = 0) →
        run_chain ex cmds = ⟨(cmds.map (chainEntry ex)).flatten, 0, cmds⟩
        ∧ outcome_status (run_chain ex cmds).rc = "Done (OK)".toList) := by
  constructor
  · intro k ck hk hf hprev
    have h := run_chain_fail ex cmds k ck hk hf hprev
    refine ⟨h, ?_⟩
    rw [h]
    simp [outcome_status, hf]
  · intro h
    have h2 := run_chain_all_ok ex cmds h
    refine ⟨h2, ?_⟩
    rw [h2]
    simp [outcome_status]

/-- C4 witness: a three-command chain whose second command fails: only the
first two commands execute, the third never runs, and the status is error. -/
theorem c4_chain_witness :
    run_chain exW cmdsW =
      ⟨((cmdsW.take 2).map (chainEntry exW)).flatten, 1, cmdsW.take 2⟩
    ∧ outcome_status (run_chain exW cmdsW).rc = "Done (Error)".toList :=
  (c4_chain_stops_at_first_failure exW cmdsW).1 1 ["git".toList, "commit".toList]
    (by decide) (by decide) (by decide)

/-- C5: the guard admits at most one task at a time: a request while
`running_task` is set is rejected — the observable outcome is `false`, the
state (including the count of started workers) is unchanged, so no second
worker is started; once `_poll_results` drains the outstanding task's outcome
the flag is cleared, and a request against a cleared flag is admitted,
starting exactly one new worker. -/
theorem c5_single_flight (st : AppSt) (o : List Char × Int × Bool) :
    (st.running_task = true → run_git_chain_req true st = (false, st))
    ∧ (poll_results (worker_publish o (⟨true, [], st.started⟩ : AppSt))).running_task = false
    ∧ (st.running_task = false →
        run_git_chain_req true st =
          (true, { st with running_task := true, started := st.started + 1 })) := by
  refine ⟨?_, ?_, ?_⟩
  · intro h
    simp [run_git_chain_req, h]
  · simp [poll_results, worker_publish]
  · intro h
    simp [run_git_chain_req, h]

/-- C5 witness: from an idle state, a first request is admitted; while it is
outstanding a second request is rejected without starting a worker; after the
outcome is delivered and drained, a new request is admitted. -/
theorem c5_single_flight_witness :
    run_git_chain_req true stW = (true, ⟨true, [], 1⟩)
    ∧ run_git_chain_req true (⟨true, [], 1⟩ : AppSt) = (false, ⟨true, [], 1⟩)
    ∧ (poll_results (worker_publish ("log".toList, 0, false) (⟨true, [], 1⟩ : AppSt))).running_task = false
    ∧ run_git_chain_req true (⟨false, [], 1⟩ : AppSt) = (true, ⟨true, [], 2⟩) :=
  ⟨(c5_single_flight stW ("log".toList, 0, false)).2.2 rfl,
   (c5_single_flight ⟨true, [], 1⟩ ("log".toList, 0, false)).1 rfl,
   (c5_single_flight ⟨false, [], 1⟩ ("log".toList, 0, false)).2.1,
   (c5_single_flight ⟨false, [], 1⟩ ("log".toList, 0, false)).2.2 rfl⟩

/-- Assigning any SET-able column leaves the surrogate id untouched. -/
theorem setRowField_id (r : Row) (c : Col) (v : SVal) :
    (setRowField r c v).id = r.id := by
  cases c <;> rfl

/-- Assigning any column other than `created_at` leaves `created_at`
untouched. -/
theorem setRowField_created (r : Row) (c : Col) (v : SVal) (h : c ≠ Col.created_at) :
    (setRowField r c v).created_at = r.created_at := by
  cases c <;> first | rfl | exact absurd rfl h

/-- A SET list never changes the surrogate id. -/
theorem applyFields_id (sets : List (Col × SVal)) :
    ∀ r : Row, (applyFields r sets).id = r.id := by
  induction sets with
  | nil => intro r; rfl
  | cons p ps ih =>
    intro r
    calc (applyFields r (p :: ps)).id = (applyFields (setRowField r p.1 p.2) ps).id := rfl
      _ = (setRowField r p.1 p.2).id := ih _
      _ = r.id := setRowField_id r p.1 p.2

/-- A SET list avoiding `created_at` never changes `created_at`. -/
theorem applyFields_created (sets : List (Col × SVal)) :
    ∀ r : Row, (∀ p ∈ sets, p.1 ≠ Col.created_at) →
      (applyFields r sets).created_at = r.created_at := by
  induction sets with
  | nil => intro r _; rfl
  | cons p ps ih =>
    intro r h
    calc (applyFields r (p :: ps)).created_at
        = (applyFields (setRowField r p.1 p.2) ps).created_at := rfl
      _ = (setRowField r p.1 p.2).created_at := ih _ fun q hq => h q (by simp [hq])
      _ = r.created_at := setRowField_created r p.1 p.2 (h p (by simp))

/-- C9: on every update path — both branches of `upsert_supplier` when a
matching row exists, and `update_supplier` used by the edit dialog — the
statement is an `UPDATE ... WHERE id = matched id` whose SET list never
mentions the surrogate id or `created_at`: the ids and `created_at`
timestamps of all rows are preserved, any row with another id is untouched,
the upsert's SET list (`fieldsList`) avoids `created_at`, and adding
`updated_at` to a dialog field dict cannot introduce `created_at`. -/
theorem c9_update_frame :
    (∀ (nU nC : String) (tbl : Table) (s : SupplierRec) (r : Row),
        truthyS s.account_id = true →
        tbl.rows.find? (fun x => sqlEq x.account_id (optStr s.account_id)) = some r →
        upsert_supplier nU nC tbl s =
          .ok ⟨execUpdate tbl.rows (fieldsList s nU) r.id, tbl.nextId⟩)
    ∧ (∀ (nU nC : String) (tbl : Table) (s : SupplierRec) (r : Row),
        truthyS s.account_id = false →
        tbl.rows.find? (fun x => sqlEq x.name (optStr s.name)
          && sqlEq (sqlIfNull x.external_id) (sqlIfNull (optInt s.external_id))) = some r →
        upsert_supplier nU nC tbl s =
          .ok ⟨execUpdate tbl.rows (fieldsList s nU) r.id, tbl.nextId⟩)
    ∧ (∀ (rows : List Row) (sets : List (Col × SVal)) (rid : Int),
        (∀ p ∈ sets, p.1 ≠ Col.created_at) →
        (execUpdate rows sets rid).map Row.id = rows.map Row.id
        ∧ (execUpdate rows sets rid).map Row.created_at = rows.map Row.created_at
        ∧ (∀ (i : Nat) (x : Row), rows[i]? = some x → x.id ≠ rid →
            (execUpdate rows sets rid)[i]? = some x))
    ∧ (∀ (s : SupplierRec) (nU : String), ∀ p ∈ fieldsList s nU, p.1 ≠ Col.created_at)
    ∧ (∀ (fields : List (Col × SVal)) (v : SVal),
        (∀ p ∈ fields, p.1 ≠ Col.created_at) →
        ∀ p ∈ dictSet fields Col.updated_at v, p.1 ≠ Col.created_at)
    ∧ (∀ (now : String) (tbl : Table) (rid : Int) (fields : List (Col × SVal)),
        update_supplier now tbl rid fields =
          ⟨execUpdate tbl.rows (dictSet fields Col.updated_at (SVal.s now)) rid,
            tbl.nextId⟩) := by
  refine ⟨?_, ?_, ?_, ?_, ?_, ?_⟩
  · intro nU nC tbl s r h1 h2
    simp [upsert_supplier, h1, h2]
  · intro nU nC tbl s r h1 h2
    simp [upsert_supplier, h1, h2]
  · intro rows sets rid h
    refine ⟨?_, ?_, ?_⟩
    · induction rows with
      | nil => rfl
      | cons x xs ih =>
        simp only [execUpdate, List.map_cons] at *
        rw [ih]
        by_cases hx : x.id = rid
        · simp [hx, applyFields_id]
        · simp [hx]
    · induction rows with
      | nil => rfl
      | cons x xs ih =>
        simp only [execUpdate, List.map_cons] at *
        rw [ih]
        by_cases hx : x.id = rid
        · simp [hx, applyFields_created sets x h]
        · simp [hx]
    · intro i x hix hne
      unfold execUpdate
      rw [List.getElem?_map, hix]
      simp [hne]
  · intro s nU p hp
    simp only [fieldsList, List.mem_cons, List.not_mem_nil, or_false] at hp
    rcases hp with rfl | rfl | rfl | rfl | rfl | rfl | rfl | rfl | rfl | rfl | rfl
      | rfl | rfl | rfl | rfl | rfl | rfl | rfl <;> simp
  · intro fields v h p hp
    unfold dictSet at hp
    by_cases hc : ((fields.map Prod.fst).contains Col.updated_at) = true
    · rw [if_pos hc] at hp
      obtain ⟨q, hq, hqp⟩ := List.mem_map.mp hp
      by_cases hq1 : q.1 = Col.updated_at
      · rw [if_pos hq1] at hqp
        rw [← hqp]
        simp
      · rw [if_neg hq1] at hqp
        rw [← hqp]
        exact h q hq
    · rw [if_neg hc] at hp
      rcases List.mem_append.mp hp with hl | hr
      · exact h p hl
      · simp only [List.mem_singleton] at hr
        rw [hr]
        simp
  · intro now tbl rid fields
    rfl

/-- C9 witness: updating a stored row through the account-id branch of the
upsert produces exactly the framed UPDATE on that row's id. -/
theorem c9_update_frame_witness :
    truthyS sUpd.account_id = true
    ∧ tbl0.rows.find? (fun x => sqlEq x.account_id (optStr sUpd.account_id)) = some row0
    ∧ upsert_supplier "U1" "C1" tbl0 sUpd =
        .ok ⟨execUpdate tbl0.rows (fieldsList sUpd "U1") row0.id, tbl0.nextId⟩ :=
  ⟨by decide, by decide,
    c9_update_frame.1 "U1" "C1" tbl0 sUpd row0 (by decide) (by decide)⟩

/-- Occurrence counts add over append. -/
theorem countOcc_append {α : Type} [DecidableEq α] (x : α) (l1 l2 : List α) :
    countOcc x (l1 ++ l2) = countOcc x l1 + countOcc x l2 := by
  induction l1 with
  | nil => simp [countOcc]
  | cons y t ih => simp [countOcc, ih]; omega

/-- A list whose members all differ from `x` contains no occurrence of it. -/
theorem countOcc_eq_zero {α : Type} [DecidableEq α] (x : α) (l : List α)
    (h : ∀ y ∈ l, y ≠ x) : countOcc x l = 0 := by
  induction l with
  | nil => rfl
  | cons y t ih =>
    have hy : y ≠ x := h y (by simp)
    simp only [countOcc, if_neg hy, Nat.zero_add]
    exact ih fun z hz => h z (by simp [hz])

/-- Counting a mapped-and-filtered order row: when `orderRow` is injective at
`o` over the list and the filter keeps `o`, the count of `orderRow o` in the
image equals the count of `o` in the original list. -/
theorem countOcc_map_orderRow (o : RawRec) (f : RawRec → Bool) :
    ∀ orders : List RawRec,
      (∀ o' ∈ orders, orderRow o' = orderRow o → o' = o) → f o = true →
      countOcc (orderRow o) ((orders.filter f).map orderRow) = countOcc o orders := by
  intro orders
  induction orders with
  | nil => intro _ _; rfl
  | cons x xs ih =>
    intro h5 hfo
    have ih' := ih (fun o' ho' => h5 o' (by simp [ho'])) hfo
    by_cases hx : x = o
    · subst hx
      rw [List.filter_cons_of_pos hfo]
      simp only [List.map_cons, countOcc, if_pos rfl]
      rw [ih']
    · have hrow : orderRow x ≠ orderRow o := fun hr => hx (h5 x (by simp) hr)
      cases hfx : f x with
      | true =>
        rw [List.filter_cons_of_pos hfx]
        simp only [List.map_cons, countOcc, if_neg hrow, if_neg hx]
        rw [ih']
      | false =>
        rw [List.filter_cons_of_neg (by simp [hfx])]
        simp only [countOcc, if_neg hx, Nat.zero_add]
        exact ih'

/-- C3 (amended): a second-collection record with a present (truthy) account
identifier that does not appear among the merged first-collection rows is
appended to the merged output exactly once — with its own key and null-filled
first-collection fields — provided it is the only order occurrence carrying
that row; records lacking a truthy account identifier are NOT appended (the
original claim fails for them, see the counterexample). -/
theorem c3_merge_union_amended :
    ∀ (products orders : List RawRec) (o : RawRec) (a : String),
      o ∈ orders →
      o.account_id = some a →
      a ≠ "" →
      a ∉ seenAcc products orders →
      (∀ o' ∈ orders, orderRow o' = orderRow o → o' = o) →
      countOcc o orders = 1 →
      countOcc (orderRow o) (mergeSuppliers products orders) = 1
      ∧ (orderRow o).account_id = o.account_id
      ∧ (orderRow o).external_id = o.id
      ∧ (orderRow o).name = o.name
      ∧ (orderRow o).sap_id = none
      ∧ (orderRow o).country = none
      ∧ (orderRow o).postcode = none := by
  intro products orders o a hmem hacc ha hseen hinj hcount
  refine ⟨?_, rfl, rfl, rfl, rfl, rfl, rfl⟩
  unfold mergeSuppliers
  rw [countOcc_append]
  have hzero : countOcc (orderRow o) (products.map (productRow orders)) = 0 := by
    apply countOcc_eq_zero
    intro m hm heq
    apply hseen
    have hma : m.account_id = some a := by rw [heq]; exact hacc
    have : truthyAcc m = some a := by simp [truthyAcc, hma, ha]
    exact List.mem_filterMap.mpr ⟨m, hm, this⟩
  rw [hzero, Nat.zero_add]
  have hf : (fun o' : RawRec =>
      match o'.account_id with
      | some a' => !(a' == "") && !((seenAccOf (products.map (productRow orders))).contains a')
      | none => false) o = true := by
    have h2 : a ∉ seenAccOf (products.map (productRow orders)) := hseen
    simp only [hacc]
    simp [ha, h2]
  rw [countOcc_map_orderRow o _ orders hinj hf]
  exact hcount

/-- C3 witness: an order with a fresh truthy account id and no product rows
is appended exactly once, null-filled. -/
theorem c3_merge_union_amended_witness :
    countOcc (orderRow oZ) (mergeSuppliers [] [oZ]) = 1
    ∧ (orderRow oZ).account_id = oZ.account_id
    ∧ (orderRow oZ).external_id = oZ.id
    ∧ (orderRow oZ).name = oZ.name
    ∧ (orderRow oZ).sap_id = none
    ∧ (orderRow oZ).country = none
    ∧ (orderRow oZ).postcode = none :=
  c3_merge_union_amended [] [oZ] oZ "Z1" (by decide) (by decide) (by decide)
    (by decide) (by decide) (by decide)

/-- The upsert loop only ever pushes progress events — never an error. -/
theorem sync_loop_no_error (nU nC : String) (total : Nat) :
    ∀ (l : List SupplierRec) (i : Nat) (c wk : Table),
      errCount (sync_loop nU nC total l i c wk).1 = 0 := by
  intro l
  induction l with
  | nil => intro i c wk; rfl
  | cons rec rest ih =>
    intro i c wk
    cases hu : upsert_supplier nU nC wk rec with
    | error e => simp [sync_loop, hu, errCount]
    | ok w2 =>
      by_cases hc : (i % 50 = 0 ∨ i = total)
      · simp only [sync_loop, hu, if_pos hc]
        have := ih (i + 1) w2 w2
        simpa [errCount] using this
      · simp only [sync_loop, hu, if_neg hc]
        exact ih (i + 1) c w2

/-- Shape of the worker epilogue when the loop raised no exception. -/
theorem sync_finish_none (total : Nat) (r : List Ev × Table × Option String)
    (h : r.2.2 = none) :
    sync_finish total r =
      (Ev.status "Sync started..."
        :: Ev.status ("Fetched " ++ toString total ++ " records, writing to DB...")
        :: r.1 ++ [Ev.status "Sync complete.", Ev.done], r.2.1) := by
  unfold sync_finish
  rw [h]

/-- C1 (amended): a failed page request does not abort the sync: the request
exception is caught inside `_http_get_json`, which hands back an empty
payload, so pagination just stops at the failed page and the sync continues
with whatever was fetched; whenever the upsert loop itself raises nothing,
the run emits no error event at all and ends with `done` — records fetched
before and beside the failure are still upserted (see the counterexample for
a concrete run). -/
theorem c1_fetch_error_swallowed :
    (∀ (w : HttpWorld) (url e : String), w url = .error e →
        http_get_json w url = ⟨[], none⟩)
    ∧ (∀ (w : HttpWorld) (fuel : Nat) (nU nC : String) (tbl : Table),
        (sync_loop nU nC (fetch_suppliers_merged w fuel).length
            (fetch_suppliers_merged w fuel) 1 tbl tbl).2.2 = none →
        errCount (sync_run w fuel nU nC tbl).1 = 0
        ∧ (sync_run w fuel nU nC tbl).1.getLast? = some Ev.done) := by
  constructor
  · intro w url e h
    simp [http_get_json, h]
  · intro w fuel nU nC tbl h
    have hf := sync_finish_none (fetch_suppliers_merged w fuel).length _ h
    unfold sync_run
    rw [hf]
    constructor
    · have hl := sync_loop_no_error nU nC (fetch_suppliers_merged w fuel).length
        (fetch_suppliers_merged w fuel) 1 tbl tbl
      simp only [errCount, List.filter_append, List.filter_cons] at *
      simpa using hl
    · have hsplit :
          Ev.status "Sync started..."
            :: Ev.status ("Fetched " ++ toString (fetch_suppliers_merged w fuel).length
                ++ " records, writing to DB...")
            :: (sync_loop nU nC (fetch_suppliers_merged w fuel).length
                (fetch_suppliers_merged w fuel) 1 tbl tbl).1
            ++ [Ev.status "Sync complete.", Ev.done] =
          (Ev.status "Sync started..."
            :: Ev.status ("Fetched " ++ toString (fetch_suppliers_merged w fuel).length
                ++ " records, writing to DB...")
            :: (sync_loop nU nC (fetch_suppliers_merged w fuel).length
                (fetch_suppliers_merged w fuel) 1 tbl tbl).1
            ++ [Ev.status "Sync complete."]) ++ [Ev.done] := by
        simp
      rw [hsplit, List.getLast?_concat]

/-- C1 amended witness: with every request failing, the sync still finishes
with `done` and no error event. -/
theorem c1_fetch_error_swallowed_witness :
    wDown "page" = Except.error "down"
    ∧ http_get_json wDown "page" = ⟨[], none⟩
    ∧ errCount (sync_run wDown 1 "A" "B" tblEmpty).1 = 0
    ∧ (sync_run wDown 1 "A" "B" tblEmpty).1.getLast? = some Ev.done :=
  ⟨rfl, c1_fetch_error_swallowed.1 wDown "page" "down" rfl,
    (c1_fetch_error_swallowed.2 wDown 1 "A" "B" tblEmpty (by decide)).1,
    (c1_fetch_error_swallowed.2 wDown 1 "A" "B" tblEmpty (by decide)).2⟩
